import Mathlib

/-!
Shallow embedding of the `lab_5_scraper/scraper.py` crawler pipeline:
configuration validation, URL collection, article extraction, the
pipeline driver, and environment preparation, together with theorems
about them.
-/

set_option maxRecDepth 10000

namespace Scraper

/-- Decidable equality for `Except`, so that concrete runs of the
embedded functions can be settled by `decide`. -/
instance exceptDecEq {ε α : Type} [DecidableEq ε] [DecidableEq α] :
    DecidableEq (Except ε α)
  | Except.error e, Except.error f =>
    if h : e = f then isTrue (by rw [h])
    else isFalse (by intro hc; injection hc; contradiction)
  | Except.error _, Except.ok _ => isFalse (by intro hc; exact Except.noConfusion hc)
  | Except.ok _, Except.error _ => isFalse (by intro hc; exact Except.noConfusion hc)
  | Except.ok a, Except.ok b =>
    if h : a = b then isTrue (by rw [h])
    else isFalse (by intro hc; injection hc; contradiction)

/-- Model of the Python method `str.startswith`: character-for-character comparison
of the candidate against the head of the string.  (Defined over the
character list so that it evaluates by kernel reduction.) -/
def starts_with (s p : String) : Bool := p.data.isPrefixOf s.data

/-- Model of a dynamically typed Python value, as configuration fields
arrive from JSON.  Python `bool` is a subclass of `int`, which matters
for the `isinstance` checks: a `vbool` passes an `isinstance(_, int)`
test, and the source excludes it explicitly for the article count but
not for the timeout. -/
inductive PyVal where
  | vint (n : Int)
  | vbool (b : Bool)
  | vstr (s : String)
  | vlist (l : List PyVal)
  | vdict (d : List (String × PyVal))
  | vnone

/-- Raw (unvalidated) configuration fields, mirroring the attributes the
`Config.__init__` constructor copies out of the DTO before calling
`_validate_config_content`. -/
structure RawConfig where
  seed_urls : PyVal
  total_articles : PyVal
  headers : PyVal
  encoding : PyVal
  timeout : PyVal
  should_verify_certificate : PyVal
  headless_mode : PyVal

/-- The named fault classes raised by `_validate_config_content`.
`incorrectVerify` is raised both for a malformed verify flag and for a
malformed headless-mode flag, exactly as in the source. -/
inductive ConfigError where
  | incorrectSeedURL
  | incorrectNumberOfArticles
  | numberOfArticlesOutOfRange
  | incorrectHeaders
  | incorrectEncoding
  | incorrectTimeout
  | incorrectVerify
deriving DecidableEq

/-- One seed URL passes the per-element check of the source:
`isinstance(url, str) and url.startswith("https://otr-online.ru/")`. -/
def seed_url_ok : PyVal → Bool
  | PyVal.vstr s => starts_with s "https://otr-online.ru/"
  | _ => false

/-- The whole seed-URL check: `isinstance(self._seed_urls, list)` and all
elements pass `seed_url_ok`. -/
def seed_urls_ok : PyVal → Bool
  | PyVal.vlist l => l.all seed_url_ok
  | _ => false

/-- Python `isinstance(x, int)` view of a value: a genuine int is itself,
and a bool counts as 1 or 0 (bool is a subclass of int). -/
def as_int : PyVal → Option Int
  | PyVal.vint n => some n
  | PyVal.vbool b => some (if b then 1 else 0)
  | _ => none

/-- Embedding of `Config._validate_config_content`: the checks run in
source order and the first failing check raises its named fault. -/
def validate_config_content (c : RawConfig) : Except ConfigError Unit :=
  if ¬ seed_urls_ok c.seed_urls then
    Except.error ConfigError.incorrectSeedURL
  else
    match c.total_articles with
    | PyVal.vint n =>
      if n < 0 then Except.error ConfigError.incorrectNumberOfArticles
      else if n > 150 then Except.error ConfigError.numberOfArticlesOutOfRange
      else
        match c.headers with
        | PyVal.vdict _ =>
          match c.encoding with
          | PyVal.vstr _ =>
            match as_int c.timeout with
            | some t =>
              if ¬ (0 < t ∧ t ≤ 60) then Except.error ConfigError.incorrectTimeout
              else
                match c.should_verify_certificate with
                | PyVal.vbool _ =>
                  match c.headless_mode with
                  | PyVal.vbool _ => Except.ok ()
                  | _ => Except.error ConfigError.incorrectVerify
                | _ => Except.error ConfigError.incorrectVerify
            | none => Except.error ConfigError.incorrectTimeout
          | _ => Except.error ConfigError.incorrectEncoding
        | _ => Except.error ConfigError.incorrectHeaders
    | _ => Except.error ConfigError.incorrectNumberOfArticles

/-- A configuration whose fields are all well formed, parameterised by the
article count and the timeout, used to probe one field at a time. -/
def valid_config (count tmo : Int) : RawConfig where
  seed_urls := PyVal.vlist [PyVal.vstr "https://otr-online.ru/news/"]
  total_articles := PyVal.vint count
  headers := PyVal.vdict []
  encoding := PyVal.vstr "utf-8"
  timeout := PyVal.vint tmo
  should_verify_certificate := PyVal.vbool true
  headless_mode := PyVal.vbool false

example : validate_config_content (valid_config 10 30) = Except.ok () := by decide

example : validate_config_content (valid_config 151 30) =
    Except.error ConfigError.numberOfArticlesOutOfRange := by decide

/-- A markup element as the crawler observes it through BeautifulSoup: a
tag name, an attribute map, the class list, and the visible text that
`get_text()` would return. -/
structure Tag where
  name : String
  attrs : List (String × String)
  classes : List String
  text : String
deriving DecidableEq

/-- A parsed document: its elements in document order.  `find` returns
the first matching element, `find_all` every matching element, exactly
as the BeautifulSoup calls in the source do. -/
structure Doc where
  tags : List Tag
deriving DecidableEq

/-- BeautifulSoup `soup.find(name)`: first element with the given tag
name, in document order. -/
def Doc.find (d : Doc) (n : String) : Option Tag :=
  d.tags.find? (fun t => t.name == n)

/-- BeautifulSoup `soup.find(name, class_=c)`: first element with the
given tag name carrying class `c`. -/
def Doc.find_with_class (d : Doc) (n c : String) : Option Tag :=
  d.tags.find? (fun t => t.name == n && t.classes.contains c)

/-- BeautifulSoup `soup.find_all(name)`: every element with the given
tag name, in document order. -/
def Doc.find_all (d : Doc) (n : String) : List Tag :=
  d.tags.filter (fun t => t.name == n)

/-- An HTTP response as `make_request` delivers it: the status code and
the body, already parsed into a document (parsing is the identity in
this model).  `requests.Response.__bool__` and `.ok` both test
`status_code < 400`. -/
structure Response where
  statusCode : Nat
  text : Doc
deriving DecidableEq

/-- `requests.Response.ok`: true when the status code is below 400. -/
def Response.ok (r : Response) : Bool := r.statusCode < 400

/-- The already-validated configuration values the crawler reads through
`get_search_urls` / `get_num_articles`.  Validation guarantees the
article count is a non-negative integer, so it is a `Nat` here. -/
structure CrawlerConfig where
  seedUrls : List String
  numArticles : Nat
deriving DecidableEq

/-- Embedding of `Crawler._extract_url`: take the first `a` element of
the document; if it exists and has an `href` attribute, return the link,
rewriting it under the site origin unless it starts with `http`;
otherwise return the sentinel. -/
def extract_url (article_bs : Doc) : String :=
  match article_bs.find "a" with
  | some article_link =>
    match article_link.attrs.lookup "href" with
    | some url =>
      if ¬ starts_with url "http" then "https://otr-online.ru" ++ url
      else url
    | none => "EXTRACTION ERROR"
  | none => "EXTRACTION ERROR"

/-- The `while` loop of `Crawler.find_articles`: keep extracting from the
same parsed seed document while the collected list is below the target
and the attempt counter is below the budget; every attempt, successful
or not, increments the counter.  The loop condition
`url_attempts < max_url_attempts` is carried as the remaining budget
`max_url_attempts - url_attempts`, on which the recursion is structural:
the budget is zero exactly when the counter has reached the cap.
Returns the collected list and the counter. -/
def extract_loop (soup : Doc) (num : Nat) :
    Nat → List String → Nat → List String × Nat
  | 0, urls, url_attempts => (urls, url_attempts)
  | budget + 1, urls, url_attempts =>
    if urls.length < num then
      let link := extract_url soup
      if link = "EXTRACTION ERROR" then
        extract_loop soup num budget urls (url_attempts + 1)
      else if link ∈ urls then
        extract_loop soup num budget urls (url_attempts + 1)
      else
        extract_loop soup num budget (urls ++ [link]) (url_attempts + 1)
    else (urls, url_attempts)

/-- The inner `for i in self.get_search_urls()` loop of
`Crawler.find_articles`: each inner seed is fetched as a liveness check
and skipped when not ok; otherwise the extraction loop runs with the
budget remaining out of `max_url_attempts`, and the inner loop breaks
once the target count is reached.  The attempt counter is threaded
through, not reset. -/
def inner_loop (env : String → Response) (cfg : CrawlerConfig) (soup : Doc)
    (max_url_attempts : Nat) :
    List String → List String → Nat → List String × Nat
  | [], urls, url_attempts => (urls, url_attempts)
  | i :: rest, urls, url_attempts =>
    let query := env i
    if ¬ query.ok then
      inner_loop env cfg soup max_url_attempts rest urls url_attempts
    else
      let res := extract_loop soup cfg.numArticles
        (max_url_attempts - url_attempts) urls url_attempts
      if cfg.numArticles ≤ res.1.length then res
      else inner_loop env cfg soup max_url_attempts rest res.1 res.2

/-- The outer `for seed_url in self.get_search_urls()` loop of
`Crawler.find_articles`: a seed whose response is falsy or has status
above 400 is skipped; otherwise its body is parsed once, the attempt
budget `num_articles * 2` is set and the attempt counter reset to 0, and
the inner loop runs.  The second component accumulates the total number
of extraction attempts across the whole run (instrumentation; the source
merely discards the counter between seeds). -/
def outer_loop (env : String → Response) (cfg : CrawlerConfig) :
    List String → List String → Nat → List String × Nat
  | [], urls, total => (urls, total)
  | seed_url :: rest, urls, total =>
    let response := env seed_url
    if ¬ response.ok ∨ response.statusCode > 400 then
      outer_loop env cfg rest urls total
    else
      let soup := response.text
      let max_url_attempts := cfg.numArticles * 2
      let res := inner_loop env cfg soup max_url_attempts cfg.seedUrls urls 0
      outer_loop env cfg rest res.1 (total + res.2)

/-- Embedding of `Crawler.find_articles`, instrumented with the total
number of extraction attempts: the collected URL list starts empty and
both loops iterate over the configured seed URLs.  `env` models the
network: the response `make_request` delivers for each URL. -/
def find_articles (env : String → Response) (cfg : CrawlerConfig) :
    List String × Nat :=
  outer_loop env cfg cfg.seedUrls [] 0

/-- Modelled from the spec: the `Article` record from `core_utils`
(imported by the source but not itself part of the crawler module).  Per
the spec it is created empty at extraction start and carries the source
url, the 1-based id, and title / author / body text fields, unset at
construction (`none` here) until the extractor populates them. -/
structure Article where
  url : String
  article_id : Nat
  title : Option String
  author : Option (List String)
  text : Option String
deriving DecidableEq

/-- Construction of an `Article` as `HTMLParser.__init__` performs it:
only the url and the id are set. -/
def Article.make (url : String) (article_id : Nat) : Article :=
  ⟨url, article_id, none, none, none⟩

/-- Model of Python `str.strip()` applied by `get_text(strip=True)`:
drop whitespace from both ends. -/
def py_strip (s : String) : String :=
  ⟨((s.data.dropWhile Char.isWhitespace).reverse.dropWhile Char.isWhitespace).reverse⟩

/-- Embedding of `HTMLParser._fill_article_with_text`: join the visible
text of every `div` element with newlines, or set the sentinel when the
document has no `div` at all. -/
def fill_article_with_text (a : Article) (article_soup : Doc) : Article :=
  let div_body := article_soup.find_all "div"
  if div_body ≠ [] then
    let texts := div_body.map Tag.text
    { a with text := some (String.intercalate "\n" texts) }
  else
    { a with text := some "NOT FOUND" }

/-- Embedding of `HTMLParser._fill_article_with_meta_information`:
`find("title")` may return no element, in which case the immediate
`title.get_text()` call raises `AttributeError` (the `Except.error`
branch) before anything is assigned; otherwise the title is set and the
author is the stripped text of the first `itemprop` element with class
`author`, or the sentinel list when there is none. -/
def fill_article_with_meta_information (a : Article) (article_soup : Doc) :
    Except String Article :=
  match article_soup.find "title" with
  | none => Except.error "AttributeError"
  | some title =>
    let a1 := { a with title := some title.text }
    match article_soup.find_with_class "itemprop" "author" with
    | some author_tag => Except.ok { a1 with author := some [py_strip author_tag.text] }
    | none => Except.ok { a1 with author := some ["NOT FOUND"] }

/-- The declared return type of `HTMLParser.parse`:
`Union[Article, bool, list]`. -/
inductive ParseResult where
  | article (a : Article)
  | boolResult (b : Bool)
  | listResult (l : List String)
deriving DecidableEq

/-- Embedding of `HTMLParser.parse` for the article at `full_url` with
id `article_id`: one fetch (the forced `utf-8` re-encoding has no
observable effect in this model); on a successful response the text and
then the meta information are filled, the latter able to raise; in every
non-raising case the method returns `self.article`.  The raising case is
the `Except.error` branch. -/
def HTMLParser.parse (env : String → Response) (full_url : String)
    (article_id : Nat) : Except String ParseResult :=
  let article := Article.make full_url article_id
  let response := env full_url
  if response.ok then
    let soup := response.text
    let a1 := fill_article_with_text article soup
    match fill_article_with_meta_information a1 soup with
    | Except.error e => Except.error e
    | Except.ok a2 => Except.ok (ParseResult.article a2)
  else Except.ok (ParseResult.article article)

/-- Observable actions of the pipeline driver: invoking the extractor
for a url with a given id, and the two persistence calls `to_raw` and
`to_meta`. -/
inductive Event where
  | invoke (id : Nat) (url : String)
  | raw (id : Nat)
  | meta (id : Nat)
deriving DecidableEq

/-- The id an event carries. -/
def event_id : Event → Nat
  | Event.invoke i _ => i
  | Event.raw i => i
  | Event.meta i => i

/-- `enumerate(crawler.urls)` with ids shifted to start at `k`: the
driver uses `index + 1`, i.e. `with_ids 1`. -/
def with_ids (k : Nat) : List String → List (Nat × String)
  | [] => []
  | u :: rest => (k, u) :: with_ids (k + 1) rest

/-- Embedding of the `for index, url in enumerate(crawler.urls)` loop of
`main`: each url is parsed with its id; an uncaught parse fault stops
the loop (the `true` flag records that the run aborted); a returned
genuine `Article` triggers `to_raw` then `to_meta`, anything else is
filtered out, and the loop continues. -/
def driver_loop (env : String → Response) :
    List (Nat × String) → List Event × Bool
  | [] => ([], false)
  | (id, url) :: rest =>
    match HTMLParser.parse env url id with
    | Except.error _ => ([Event.invoke id url], true)
    | Except.ok r =>
      let persisted :=
        match r with
        | ParseResult.article _ => [Event.raw id, Event.meta id]
        | _ => []
      let res := driver_loop env rest
      (Event.invoke id url :: (persisted ++ res.1), res.2)

/-- Embedding of the crawl-then-extract part of `main`: collect URLs,
then run the driver loop over them with 1-based ids. -/
def run_pipeline (env : String → Response) (cfg : CrawlerConfig) :
    List Event × Bool :=
  driver_loop env (with_ids 1 (find_articles env cfg).1)

/-- State of the output location on disk, as far as
`prepare_environment` can observe it: missing, a directory with some
entries, or a non-directory file. -/
inductive World where
  | absent
  | dir (contents : List String)
  | file
deriving DecidableEq

/-- `pathlib.Path(base_path).is_dir()`. -/
def World.is_dir : World → Bool
  | World.dir _ => true
  | _ => false

/-- `shutil.rmtree(base_path)`: removes the directory tree.  (Only ever
called on a directory by the source.) -/
def rmtree : World → World := fun _ => World.absent

/-- `pathlib.Path(base_path).mkdir(parents=True)`: creates the directory
when the path is free, raises `FileExistsError` otherwise (no
`exist_ok`). -/
def mkdir_parents : World → Except String World
  | World.absent => Except.ok (World.dir [])
  | _ => Except.error "FileExistsError"

/-- Embedding of `prepare_environment`: remove the directory if the path
is one, then create it. -/
def prepare_environment (w : World) : Except String World :=
  mkdir_parents (if w.is_dir then rmtree w else w)

/-! ## Lemmas about the collection loops -/

/-- Every extraction attempt within one outer iteration re-extracts from
the same parsed document, so the extraction loop leaves the collected
list unchanged or appends the single extractable value once. -/
lemma extract_loop_single (soup : Doc) (num : Nat) :
    ∀ budget urls att,
      (extract_loop soup num budget urls att).1 = urls ∨
      (extract_url soup ∉ urls ∧
        (extract_loop soup num budget urls att).1 = urls ++ [extract_url soup]) := by
  intro budget
  induction budget with
  | zero => intro urls att; exact Or.inl rfl
  | succ b ih =>
    intro urls att
    by_cases hlen : urls.length < num
    · by_cases herr : extract_url soup = "EXTRACTION ERROR"
      · simpa [extract_loop, hlen, herr] using ih urls (att + 1)
      · by_cases hmem : extract_url soup ∈ urls
        · simpa [extract_loop, hlen, herr, hmem] using ih urls (att + 1)
        · rcases ih (urls ++ [extract_url soup]) (att + 1) with h | ⟨hnot, h⟩
          · exact Or.inr ⟨hmem, by simpa [extract_loop, hlen, herr, hmem] using h⟩
          · exact absurd (by simp : extract_url soup ∈ urls ++ [extract_url soup]) hnot
    · exact Or.inl (by simp [extract_loop, hlen])

/-- The extraction loop only appends to the collected list. -/
lemma extract_loop_mono (soup : Doc) (num budget : Nat) (urls : List String)
    (att : Nat) :
    ∃ grown, (extract_loop soup num budget urls att).1 = urls ++ grown := by
  rcases extract_loop_single soup num budget urls att with h | ⟨-, h⟩
  · exact ⟨[], by simp [h]⟩
  · exact ⟨[extract_url soup], h⟩

/-- The extraction loop never grows the collected list beyond the target
count. -/
lemma extract_loop_length (soup : Doc) (num : Nat) :
    ∀ budget urls att, urls.length ≤ num →
      (extract_loop soup num budget urls att).1.length ≤ num := by
  intro budget
  induction budget with
  | zero => intro urls att h; exact h
  | succ b ih =>
    intro urls att h
    by_cases hlen : urls.length < num
    · by_cases herr : extract_url soup = "EXTRACTION ERROR"
      · simpa [extract_loop, hlen, herr] using ih urls (att + 1) h
      · by_cases hmem : extract_url soup ∈ urls
        · simpa [extract_loop, hlen, herr, hmem] using ih urls (att + 1) h
        · have : (urls ++ [extract_url soup]).length ≤ num := by
            simp only [List.length_append, List.length_singleton]
            omega
          simpa [extract_loop, hlen, herr, hmem] using
            ih (urls ++ [extract_url soup]) (att + 1) this
    · simpa [extract_loop, hlen] using h

/-- The extraction loop preserves freedom from duplicates. -/
lemma extract_loop_nodup (soup : Doc) (num : Nat) :
    ∀ budget urls att, urls.Nodup →
      (extract_loop soup num budget urls att).1.Nodup := by
  intro budget
  induction budget with
  | zero => intro urls att h; exact h
  | succ b ih =>
    intro urls att h
    by_cases hlen : urls.length < num
    · by_cases herr : extract_url soup = "EXTRACTION ERROR"
      · simpa [extract_loop, hlen, herr] using ih urls (att + 1) h
      · by_cases hmem : extract_url soup ∈ urls
        · simpa [extract_loop, hlen, herr, hmem] using ih urls (att + 1) h
        · have : (urls ++ [extract_url soup]).Nodup := by
            refine List.Nodup.append h (List.nodup_singleton _) ?_
            intro a ha hb
            simp only [List.mem_singleton] at hb
            exact hmem (hb ▸ ha)
          simpa [extract_loop, hlen, herr, hmem] using
            ih (urls ++ [extract_url soup]) (att + 1) this
    · simpa [extract_loop, hlen] using h

/-- The extraction loop performs at most `budget` further attempts. -/
lemma extract_loop_attempts (soup : Doc) (num : Nat) :
    ∀ budget urls att, (extract_loop soup num budget urls att).2 ≤ att + budget := by
  intro budget
  induction budget with
  | zero => intro urls att; simp [extract_loop]
  | succ b ih =>
    intro urls att
    by_cases hlen : urls.length < num
    · by_cases herr : extract_url soup = "EXTRACTION ERROR"
      · have h2 := ih urls (att + 1)
        have h3 : (extract_loop soup num (b + 1) urls att).2 =
            (extract_loop soup num b urls (att + 1)).2 := by
          simp [extract_loop, hlen, herr]
        omega
      · by_cases hmem : extract_url soup ∈ urls
        · have h2 := ih urls (att + 1)
          have h3 : (extract_loop soup num (b + 1) urls att).2 =
              (extract_loop soup num b urls (att + 1)).2 := by
            simp [extract_loop, hlen, herr, hmem]
          omega
        · have h2 := ih (urls ++ [extract_url soup]) (att + 1)
          have h3 : (extract_loop soup num (b + 1) urls att).2 =
              (extract_loop soup num b (urls ++ [extract_url soup]) (att + 1)).2 := by
            simp [extract_loop, hlen, herr, hmem]
          omega
    · simp [extract_loop, hlen]

/-- Within one outer iteration the parsed document is fixed, so the whole
inner loop leaves the collected list unchanged or appends the single extractable value of the document once. -/
lemma inner_loop_single (env : String → Response) (cfg : CrawlerConfig)
    (soup : Doc) (maxA : Nat) :
    ∀ seeds urls att,
      (inner_loop env cfg soup maxA seeds urls att).1 = urls ∨
      (extract_url soup ∉ urls ∧
        (inner_loop env cfg soup maxA seeds urls att).1 =
          urls ++ [extract_url soup]) := by
  intro seeds
  induction seeds with
  | nil => intro urls att; exact Or.inl rfl
  | cons i rest ih =>
    intro urls att
    by_cases hok : (env i).ok
    · rcases hE : extract_loop soup cfg.numArticles (maxA - att) urls att with ⟨u2, a2⟩
      have h5 := extract_loop_single soup cfg.numArticles (maxA - att) urls att
      rw [hE] at h5
      by_cases hbreak : cfg.numArticles ≤ u2.length
      · have h4 : (inner_loop env cfg soup maxA (i :: rest) urls att).1 = u2 := by
          simp [inner_loop, hok, hE, hbreak]
        rw [h4]
        exact h5
      · have h4 : (inner_loop env cfg soup maxA (i :: rest) urls att).1 =
            (inner_loop env cfg soup maxA rest u2 a2).1 := by
          simp [inner_loop, hok, hE, hbreak]
        rw [h4]
        rcases h5 with h5 | ⟨hn, h5⟩
        · simp only at h5
          rw [h5]
          exact ih urls a2
        · simp only at h5
          rcases ih u2 a2 with h6 | ⟨hn6, h6⟩
          · rw [h6, h5]
            exact Or.inr ⟨hn, rfl⟩
          · rw [h5] at hn6
            exact absurd (by simp) hn6
    · simpa [inner_loop, hok] using ih urls att

/-- The inner loop only appends to the collected list. -/
lemma inner_loop_mono (env : String → Response) (cfg : CrawlerConfig)
    (soup : Doc) (maxA : Nat) (seeds urls : List String) (att : Nat) :
    ∃ grown, (inner_loop env cfg soup maxA seeds urls att).1 = urls ++ grown := by
  rcases inner_loop_single env cfg soup maxA seeds urls att with h | ⟨-, h⟩
  · exact ⟨[], by simp [h]⟩
  · exact ⟨[extract_url soup], h⟩

/-- The inner loop never grows the collected list beyond the target
count. -/
lemma inner_loop_length (env : String → Response) (cfg : CrawlerConfig)
    (soup : Doc) (maxA : Nat) :
    ∀ seeds urls att, urls.length ≤ cfg.numArticles →
      (inner_loop env cfg soup maxA seeds urls att).1.length ≤ cfg.numArticles := by
  intro seeds
  induction seeds with
  | nil => intro urls att h; exact h
  | cons i rest ih =>
    intro urls att h
    by_cases hok : (env i).ok
    · rcases hE : extract_loop soup cfg.numArticles (maxA - att) urls att with ⟨u2, a2⟩
      have h5 := extract_loop_length soup cfg.numArticles (maxA - att) urls att h
      rw [hE] at h5
      simp only at h5
      by_cases hbreak : cfg.numArticles ≤ u2.length
      · have h4 : (inner_loop env cfg soup maxA (i :: rest) urls att).1 = u2 := by
          simp [inner_loop, hok, hE, hbreak]
        rw [h4]; exact h5
      · have h4 : (inner_loop env cfg soup maxA (i :: rest) urls att).1 =
            (inner_loop env cfg soup maxA rest u2 a2).1 := by
          simp [inner_loop, hok, hE, hbreak]
        rw [h4]
        exact ih u2 a2 h5
    · simpa [inner_loop, hok] using ih urls att h

/-- The inner loop preserves freedom from duplicates. -/
lemma inner_loop_nodup (env : String → Response) (cfg : CrawlerConfig)
    (soup : Doc) (maxA : Nat) :
    ∀ seeds urls att, urls.Nodup →
      (inner_loop env cfg soup maxA seeds urls att).1.Nodup := by
  intro seeds
  induction seeds with
  | nil => intro urls att h; exact h
  | cons i rest ih =>
    intro urls att h
    by_cases hok : (env i).ok
    · rcases hE : extract_loop soup cfg.numArticles (maxA - att) urls att with ⟨u2, a2⟩
      have h5 := extract_loop_nodup soup cfg.numArticles (maxA - att) urls att h
      rw [hE] at h5
      simp only at h5
      by_cases hbreak : cfg.numArticles ≤ u2.length
      · have h4 : (inner_loop env cfg soup maxA (i :: rest) urls att).1 = u2 := by
          simp [inner_loop, hok, hE, hbreak]
        rw [h4]; exact h5
      · have h4 : (inner_loop env cfg soup maxA (i :: rest) urls att).1 =
            (inner_loop env cfg soup maxA rest u2 a2).1 := by
          simp [inner_loop, hok, hE, hbreak]
        rw [h4]
        exact ih u2 a2 h5
    · simpa [inner_loop, hok] using ih urls att h

/-- The attempt counter never passes the per-seed budget within the inner
loop. -/
lemma inner_loop_attempts (env : String → Response) (cfg : CrawlerConfig)
    (soup : Doc) (maxA : Nat) :
    ∀ seeds urls att, att ≤ maxA →
      (inner_loop env cfg soup maxA seeds urls att).2 ≤ maxA := by
  intro seeds
  induction seeds with
  | nil => intro urls att h; exact h
  | cons i rest ih =>
    intro urls att h
    by_cases hok : (env i).ok
    · rcases hE : extract_loop soup cfg.numArticles (maxA - att) urls att with ⟨u2, a2⟩
      have h5 := extract_loop_attempts soup cfg.numArticles (maxA - att) urls att
      rw [hE] at h5
      simp only at h5
      have h6 : a2 ≤ maxA := by omega
      by_cases hbreak : cfg.numArticles ≤ u2.length
      · have h4 : (inner_loop env cfg soup maxA (i :: rest) urls att).2 = a2 := by
          simp [inner_loop, hok, hE, hbreak]
        rw [h4]; exact h6
      · have h4 : (inner_loop env cfg soup maxA (i :: rest) urls att).2 =
            (inner_loop env cfg soup maxA rest u2 a2).2 := by
          simp [inner_loop, hok, hE, hbreak]
        rw [h4]
        exact ih u2 a2 h6
    · simpa [inner_loop, hok] using ih urls att h

/-- The outer loop only appends to the collected list. -/
lemma outer_loop_mono (env : String → Response) (cfg : CrawlerConfig) :
    ∀ seeds urls total, ∃ grown,
      (outer_loop env cfg seeds urls total).1 = urls ++ grown := by
  intro seeds
  induction seeds with
  | nil => intro urls total; exact ⟨[], by simp [outer_loop]⟩
  | cons seed rest ih =>
    intro urls total
    by_cases hskip : (env seed).ok = false ∨ 400 < (env seed).statusCode
    · simpa [outer_loop, hskip] using ih urls total
    · rcases hE : inner_loop env cfg (env seed).text (cfg.numArticles * 2)
        cfg.seedUrls urls 0 with ⟨u2, a2⟩
      have h5 := inner_loop_mono env cfg (env seed).text (cfg.numArticles * 2)
        cfg.seedUrls urls 0
      rw [hE] at h5
      simp only at h5
      rcases h5 with ⟨g1, hg1⟩
      have h4 : outer_loop env cfg (seed :: rest) urls total =
          outer_loop env cfg rest u2 (total + a2) := by
        simp [outer_loop, hskip, hE]
      rcases ih u2 (total + a2) with ⟨g2, hg2⟩
      exact ⟨g1 ++ g2, by rw [h4, hg2, hg1, List.append_assoc]⟩

/-- The outer loop never grows the collected list beyond the target
count. -/
lemma outer_loop_length (env : String → Response) (cfg : CrawlerConfig) :
    ∀ seeds urls total, urls.length ≤ cfg.numArticles →
      (outer_loop env cfg seeds urls total).1.length ≤ cfg.numArticles := by
  intro seeds
  induction seeds with
  | nil => intro urls total h; simpa [outer_loop] using h
  | cons seed rest ih =>
    intro urls total h
    by_cases hskip : (env seed).ok = false ∨ 400 < (env seed).statusCode
    · simpa [outer_loop, hskip] using ih urls total h
    · rcases hE : inner_loop env cfg (env seed).text (cfg.numArticles * 2)
        cfg.seedUrls urls 0 with ⟨u2, a2⟩
      have h5 := inner_loop_length env cfg (env seed).text (cfg.numArticles * 2)
        cfg.seedUrls urls 0 h
      rw [hE] at h5
      simp only at h5
      have h4 : outer_loop env cfg (seed :: rest) urls total =
          outer_loop env cfg rest u2 (total + a2) := by
        simp [outer_loop, hskip, hE]
      rw [h4]
      exact ih u2 (total + a2) h5

/-- The outer loop preserves freedom from duplicates. -/
lemma outer_loop_nodup (env : String → Response) (cfg : CrawlerConfig) :
    ∀ seeds urls total, urls.Nodup →
      (outer_loop env cfg seeds urls total).1.Nodup := by
  intro seeds
  induction seeds with
  | nil => intro urls total h; simpa [outer_loop] using h
  | cons seed rest ih =>
    intro urls total h
    by_cases hskip : (env seed).ok = false ∨ 400 < (env seed).statusCode
    · simpa [outer_loop, hskip] using ih urls total h
    · rcases hE : inner_loop env cfg (env seed).text (cfg.numArticles * 2)
        cfg.seedUrls urls 0 with ⟨u2, a2⟩
      have h5 := inner_loop_nodup env cfg (env seed).text (cfg.numArticles * 2)
        cfg.seedUrls urls 0 h
      rw [hE] at h5
      simp only at h5
      have h4 : outer_loop env cfg (seed :: rest) urls total =
          outer_loop env cfg rest u2 (total + a2) := by
        simp [outer_loop, hskip, hE]
      rw [h4]
      exact ih u2 (total + a2) h5

/-- Across the whole run, each usable seed contributes at most `num * 2`
extraction attempts, because the counter is reset per outer seed. -/
lemma outer_loop_attempts (env : String → Response) (cfg : CrawlerConfig) :
    ∀ seeds urls total,
      (outer_loop env cfg seeds urls total).2 ≤
        total + seeds.length * (cfg.numArticles * 2) := by
  intro seeds
  induction seeds with
  | nil => intro urls total; simp [outer_loop]
  | cons seed rest ih =>
    intro urls total
    by_cases hskip : (env seed).ok = false ∨ 400 < (env seed).statusCode
    · have h2 := ih urls total
      have h3 : (outer_loop env cfg (seed :: rest) urls total).2 =
          (outer_loop env cfg rest urls total).2 := by
        simp [outer_loop, hskip]
      rw [h3]
      have h7 : rest.length * (cfg.numArticles * 2) ≤
          (rest.length + 1) * (cfg.numArticles * 2) :=
        Nat.mul_le_mul_right _ (Nat.le_succ _)
      have h8 : (seed :: rest).length = rest.length + 1 := by simp
      rw [h8]
      omega
    · rcases hE : inner_loop env cfg (env seed).text (cfg.numArticles * 2)
        cfg.seedUrls urls 0 with ⟨u2, a2⟩
      have h5 := inner_loop_attempts env cfg (env seed).text (cfg.numArticles * 2)
        cfg.seedUrls urls 0 (Nat.zero_le _)
      rw [hE] at h5
      simp only at h5
      have h4 : (outer_loop env cfg (seed :: rest) urls total).2 =
          (outer_loop env cfg rest u2 (total + a2)).2 := by
        simp [outer_loop, hskip, hE]
      rw [h4]
      have h2 := ih u2 (total + a2)
      have h6 : (seed :: rest).length * (cfg.numArticles * 2) =
          rest.length * (cfg.numArticles * 2) + cfg.numArticles * 2 := by
        simp [List.length_cons, Nat.succ_mul]
      omega

/-! ## Theorems for the claims -/

/-- Claim C6: configuration validation raises the corresponding named
fault for each boundary-violating field value (article count 151,
timeout 0 or 61, non-boolean verify flag, non-dict headers, non-string
encoding, non-list seed URLs or a seed URL not matching the required
origin), and accepts the valid boundary values count 0, count 150,
timeout 1 and timeout 60. -/
theorem C6_config_validation :
    (validate_config_content (valid_config 151 30) =
      Except.error ConfigError.numberOfArticlesOutOfRange) ∧
    (validate_config_content (valid_config 10 0) =
      Except.error ConfigError.incorrectTimeout) ∧
    (validate_config_content (valid_config 10 61) =
      Except.error ConfigError.incorrectTimeout) ∧
    (∀ v : PyVal, (∀ b, v ≠ PyVal.vbool b) →
      validate_config_content
        { valid_config 10 30 with should_verify_certificate := v } =
        Except.error ConfigError.incorrectVerify) ∧
    (∀ hd : PyVal, (∀ d, hd ≠ PyVal.vdict d) →
      validate_config_content { valid_config 10 30 with headers := hd } =
        Except.error ConfigError.incorrectHeaders) ∧
    (∀ en : PyVal, (∀ s, en ≠ PyVal.vstr s) →
      validate_config_content { valid_config 10 30 with encoding := en } =
        Except.error ConfigError.incorrectEncoding) ∧
    (∀ sv : PyVal, (∀ l, sv ≠ PyVal.vlist l) →
      validate_config_content { valid_config 10 30 with seed_urls := sv } =
        Except.error ConfigError.incorrectSeedURL) ∧
    (∀ u : String, starts_with u "https://otr-online.ru/" = false →
      validate_config_content
        { valid_config 10 30 with seed_urls := PyVal.vlist [PyVal.vstr u] } =
        Except.error ConfigError.incorrectSeedURL) ∧
    (validate_config_content (valid_config 0 30) = Except.ok ()) ∧
    (validate_config_content (valid_config 150 30) = Except.ok ()) ∧
    (validate_config_content (valid_config 10 1) = Except.ok ()) ∧
    (validate_config_content (valid_config 10 60) = Except.ok ()) := by
  refine ⟨by decide, by decide, by decide, ?_, ?_, ?_, ?_, ?_,
    by decide, by decide, by decide, by decide⟩
  · intro v hv
    cases v with
    | vbool b => exact absurd rfl (hv b)
    | vint n => rfl
    | vstr s => rfl
    | vlist l => rfl
    | vdict d => rfl
    | vnone => rfl
  · intro hd hh
    cases hd with
    | vdict d => exact absurd rfl (hh d)
    | vint n => rfl
    | vbool b => rfl
    | vstr s => rfl
    | vlist l => rfl
    | vnone => rfl
  · intro en he
    cases en with
    | vstr s => exact absurd rfl (he s)
    | vint n => rfl
    | vbool b => rfl
    | vlist l => rfl
    | vdict d => rfl
    | vnone => rfl
  · intro sv hs
    cases sv with
    | vlist l => exact absurd rfl (hs l)
    | vint n => rfl
    | vbool b => rfl
    | vstr s => rfl
    | vdict d => rfl
    | vnone => rfl
  · intro u hu
    simp [validate_config_content, seed_urls_ok, seed_url_ok, valid_config, hu]

/-- Witness for C6 at concrete boundary-violating values: an integer
verify flag, string headers, integer encoding, string seed-URL field,
and a seed URL under a foreign origin. -/
theorem C6_config_validation_witness :
    validate_config_content
      { valid_config 10 30 with should_verify_certificate := PyVal.vint 1 } =
      Except.error ConfigError.incorrectVerify ∧
    validate_config_content { valid_config 10 30 with headers := PyVal.vstr "h" } =
      Except.error ConfigError.incorrectHeaders ∧
    validate_config_content { valid_config 10 30 with encoding := PyVal.vint 5 } =
      Except.error ConfigError.incorrectEncoding ∧
    validate_config_content { valid_config 10 30 with seed_urls := PyVal.vstr "x" } =
      Except.error ConfigError.incorrectSeedURL ∧
    validate_config_content
      { valid_config 10 30 with
        seed_urls := PyVal.vlist [PyVal.vstr "https://example.com/"] } =
      Except.error ConfigError.incorrectSeedURL :=
  ⟨C6_config_validation.2.2.2.1 (PyVal.vint 1) (fun _ h => PyVal.noConfusion h),
   C6_config_validation.2.2.2.2.1 (PyVal.vstr "h") (fun _ h => PyVal.noConfusion h),
   C6_config_validation.2.2.2.2.2.1 (PyVal.vint 5) (fun _ h => PyVal.noConfusion h),
   C6_config_validation.2.2.2.2.2.2.1 (PyVal.vstr "x") (fun _ h => PyVal.noConfusion h),
   C6_config_validation.2.2.2.2.2.2.2.1 "https://example.com/" (by decide)⟩

/-- Claim C7: an extracted link value not starting with the scheme
pattern `http` is rewritten to an absolute URL under the site origin
`https://otr-online.ru`; a link that already starts with it passes
through unchanged; a document without an `a` element, or whose first `a`
element has no `href` attribute, yields the extraction-failure
sentinel. -/
theorem C7_relative_link_rewriting (doc : Doc) :
    (∀ t u, doc.find "a" = some t → t.attrs.lookup "href" = some u →
      (starts_with u "http" = false →
        extract_url doc = "https://otr-online.ru" ++ u) ∧
      (starts_with u "http" = true → extract_url doc = u)) ∧
    (doc.find "a" = none → extract_url doc = "EXTRACTION ERROR") ∧
    (∀ t, doc.find "a" = some t → t.attrs.lookup "href" = none →
      extract_url doc = "EXTRACTION ERROR") := by
  refine ⟨?_, ?_, ?_⟩
  · intro t u ht hu
    exact ⟨fun hs => by simp [extract_url, ht, hu, hs],
           fun hs => by simp [extract_url, ht, hu, hs]⟩
  · intro h
    simp [extract_url, h]
  · intro t ht hu
    simp [extract_url, ht, hu]

/-- Witness for C7: a relative link is rewritten, an absolute one passes
through, and a missing anchor or missing `href` yields the sentinel. -/
theorem C7_relative_link_rewriting_witness :
    extract_url (Doc.mk [Tag.mk "a" [("href", "/x")] [] ""]) =
      "https://otr-online.ru" ++ "/x" ∧
    extract_url (Doc.mk [Tag.mk "a" [("href", "https://e.com")] [] ""]) =
      "https://e.com" ∧
    extract_url (Doc.mk []) = "EXTRACTION ERROR" ∧
    extract_url (Doc.mk [Tag.mk "a" [] [] ""]) = "EXTRACTION ERROR" :=
  ⟨((C7_relative_link_rewriting (Doc.mk [Tag.mk "a" [("href", "/x")] [] ""])).1
      (Tag.mk "a" [("href", "/x")] [] "") "/x" (by decide) (by decide)).1 (by decide),
   ((C7_relative_link_rewriting (Doc.mk [Tag.mk "a" [("href", "https://e.com")] [] ""])).1
      (Tag.mk "a" [("href", "https://e.com")] [] "") "https://e.com"
      (by decide) (by decide)).2 (by decide),
   (C7_relative_link_rewriting (Doc.mk [])).2.1 (by decide),
   (C7_relative_link_rewriting (Doc.mk [Tag.mk "a" [] [] ""])).2.2
      (Tag.mk "a" [] [] "") (by decide) (by decide)⟩

/-- Claim C9: the environment-preparation reset is idempotent: from any
prior state that is not a plain file — a missing path or a directory
with any contents — one invocation yields an existing empty directory
without raising, and a second invocation from that state again yields an
existing empty directory. -/
theorem C9_prepare_environment_idempotent (w : World) (h : w ≠ World.file) :
    prepare_environment w = Except.ok (World.dir []) ∧
    prepare_environment (World.dir []) = Except.ok (World.dir []) := by
  cases w with
  | absent => exact ⟨rfl, rfl⟩
  | dir c => exact ⟨rfl, rfl⟩
  | file => exact absurd rfl h

/-- Witness for C9: preparing from a missing path succeeds and a second
invocation succeeds again. -/
theorem C9_prepare_environment_idempotent_witness :
    prepare_environment World.absent = Except.ok (World.dir []) ∧
    prepare_environment (World.dir []) = Except.ok (World.dir []) :=
  C9_prepare_environment_idempotent World.absent (by decide)

/-- A concrete run refuting claim C1: two usable seeds whose pages have
no links at all.  The attempt counter is reset per outer seed, so the
whole run spends `2 × target_count` attempts on each seed. -/
def c1_env : String → Response := fun _ => Response.mk 200 (Doc.mk [])

/-- Configuration for the C1 run: two seeds, target count 1. -/
def c1_cfg : CrawlerConfig :=
  CrawlerConfig.mk ["https://otr-online.ru/a", "https://otr-online.ru/b"] 1

/-- Counterexample to claim C1 as stated: with two usable seeds and
target count 1, the run performs 4 extraction attempts in total, which
exceeds the claimed whole-run budget `2 × target_count = 2`.  (The
collection still terminates, with no URL collected.) -/
theorem C1_counterexample :
    (find_articles c1_env c1_cfg).2 = 4 ∧
    c1_cfg.numArticles * 2 = 2 ∧
    ¬ (find_articles c1_env c1_cfg).2 ≤ c1_cfg.numArticles * 2 := by
  refine ⟨by decide, by decide, by decide⟩

/-- Claim C1 (amended): the `2 × target_count` extraction-attempt budget
is enforced per outer seed iteration — the counter is reset for every
seed — so a whole run performs at most
`(number of seeds) × 2 × target_count` attempts; the collection routine
always terminates (`find_articles` is a total function, and the inner
loop strictly decreases its remaining budget). -/
theorem C1_attempt_budget (env : String → Response) (cfg : CrawlerConfig) :
    (∀ soup seeds urls,
      (inner_loop env cfg soup (cfg.numArticles * 2) seeds urls 0).2 ≤
        cfg.numArticles * 2) ∧
    (find_articles env cfg).2 ≤ cfg.seedUrls.length * (cfg.numArticles * 2) := by
  constructor
  · intro soup seeds urls
    exact inner_loop_attempts env cfg soup (cfg.numArticles * 2) seeds urls 0
      (Nat.zero_le _)
  · simpa using outer_loop_attempts env cfg cfg.seedUrls [] 0

/-- Claim C2: every extraction attempt re-extracts the first link-bearing
element of the same already-parsed seed document (`extract_url soup` is a
pure function applied to a fixed `soup` throughout the inner loop), so
one document contributes at most one unique URL to the collected list,
no matter how many attempts are spent on it. -/
theorem C2_one_url_per_document (env : String → Response) (cfg : CrawlerConfig)
    (soup : Doc) (maxA : Nat) (seeds urls : List String) (att : Nat) :
    (inner_loop env cfg soup maxA seeds urls att).1 = urls ∨
    (inner_loop env cfg soup maxA seeds urls att).1 =
      urls ++ [extract_url soup] := by
  rcases inner_loop_single env cfg soup maxA seeds urls att with h | ⟨-, h⟩
  · exact Or.inl h
  · exact Or.inr h

/-- Claim C3: for a fixed environment of seed responses the collected URL
list never exceeds the target count, has no duplicates, and only ever
grows by appending at the end — at every step of the outer, inner and
extraction loops the previous list is a prefix of the new one, so
first-discovery order is preserved and nothing is ever removed or
reordered. -/
theorem C3_collector_invariants (env : String → Response) (cfg : CrawlerConfig) :
    (find_articles env cfg).1.length ≤ cfg.numArticles ∧
    (find_articles env cfg).1.Nodup ∧
    (∀ seeds urls total, ∃ grown,
      (outer_loop env cfg seeds urls total).1 = urls ++ grown) ∧
    (∀ soup maxA seeds urls att, ∃ grown,
      (inner_loop env cfg soup maxA seeds urls att).1 = urls ++ grown) ∧
    (∀ soup budget urls att, ∃ grown,
      (extract_loop soup cfg.numArticles budget urls att).1 = urls ++ grown) := by
  refine ⟨?_, ?_, ?_, ?_, ?_⟩
  · exact outer_loop_length env cfg cfg.seedUrls [] 0 (by simp)
  · exact outer_loop_nodup env cfg cfg.seedUrls [] 0 List.nodup_nil
  · exact outer_loop_mono env cfg
  · intro soup maxA seeds urls att
    exact inner_loop_mono env cfg soup maxA seeds urls att
  · intro soup budget urls att
    exact extract_loop_mono soup cfg.numArticles budget urls att

/-- The one condition under which `HTMLParser.parse` can raise: a url
whose fetch succeeds but whose document has no `title` element.  A url
satisfying `no_title_fault` parses without fault. -/
def no_title_fault (env : String → Response) (u : String) : Prop :=
  (env u).ok = true → Doc.find (env u).text "title" ≠ none

/-- The driver trace for a stretch of urls that all parse without fault,
with ids counting up from `k`: invoke, then persist raw, then persist
meta, for each url in order. -/
def expected_trace (k : Nat) : List String → List Event
  | [] => []
  | u :: rest =>
    Event.invoke k u :: Event.raw k :: Event.meta k :: expected_trace (k + 1) rest

/-- A non-successful fetch returns the freshly constructed record. -/
lemma parse_not_ok (env : String → Response) (url : String) (id : Nat)
    (h : (env url).ok = false) :
    HTMLParser.parse env url id =
      Except.ok (ParseResult.article (Article.make url id)) := by
  simp [HTMLParser.parse, h]

/-- A successful fetch of a document with no `title` element raises. -/
lemma parse_no_title (env : String → Response) (url : String) (id : Nat)
    (hok : (env url).ok = true) (ht : Doc.find (env url).text "title" = none) :
    HTMLParser.parse env url id = Except.error "AttributeError" := by
  simp [HTMLParser.parse, hok, fill_article_with_meta_information, ht]

/-- A url that cannot hit the title fault parses to a genuine article. -/
lemma parse_total_of_no_fault (env : String → Response) (url : String) (id : Nat)
    (h : no_title_fault env url) :
    ∃ a, HTMLParser.parse env url id = Except.ok (ParseResult.article a) := by
  by_cases hok : (env url).ok
  · cases hfind : Doc.find (env url).text "title" with
    | none => exact absurd hfind (h hok)
    | some t =>
      cases hauth : Doc.find_with_class (env url).text "itemprop" "author" with
      | none =>
        exact ⟨_, by
          simp [HTMLParser.parse, hok, fill_article_with_meta_information,
            hfind, hauth]
          rfl⟩
      | some tag =>
        exact ⟨_, by
          simp [HTMLParser.parse, hok, fill_article_with_meta_information,
            hfind, hauth]
          rfl⟩
  · exact ⟨_, by
      simp [HTMLParser.parse, hok]
      rfl⟩

/-- Whenever `parse` returns normally, the returned value is a genuine
article record, never the `bool` or `list` alternatives of its declared
return type. -/
lemma parse_result_is_article (env : String → Response) (url : String)
    (id : Nat) (r : ParseResult)
    (h : HTMLParser.parse env url id = Except.ok r) :
    ∃ a, r = ParseResult.article a := by
  by_cases hok : (env url).ok
  · cases hfind : Doc.find (env url).text "title" with
    | none =>
      rw [parse_no_title env url id hok hfind] at h
      exact absurd h (by simp)
    | some t =>
      cases hauth : Doc.find_with_class (env url).text "itemprop" "author" with
      | none =>
        simp [HTMLParser.parse, hok, fill_article_with_meta_information,
          hfind, hauth] at h
        exact ⟨_, h.symm⟩
      | some tag =>
        simp [HTMLParser.parse, hok, fill_article_with_meta_information,
          hfind, hauth] at h
        exact ⟨_, h.symm⟩
  · rw [parse_not_ok env url id (by simpa using hok)] at h
    exact ⟨_, (by simpa using h : _ = r).symm⟩

/-- Unfolding of the driver loop at a url whose parse returns a genuine
article. -/
lemma driver_loop_cons_article (env : String → Response) (id : Nat)
    (url : String) (rest : List (Nat × String)) (a : Article)
    (h : HTMLParser.parse env url id = Except.ok (ParseResult.article a)) :
    driver_loop env ((id, url) :: rest) =
      (Event.invoke id url :: Event.raw id :: Event.meta id ::
        (driver_loop env rest).1, (driver_loop env rest).2) := by
  simp [driver_loop, h]

/-- Over a list of urls that all parse without fault, the driver produces
exactly the expected trace and does not abort. -/
lemma driver_loop_expected (env : String → Response) :
    ∀ urls k, (∀ u ∈ urls, no_title_fault env u) →
      driver_loop env (with_ids k urls) = (expected_trace k urls, false) := by
  intro urls
  induction urls with
  | nil => intro k h; rfl
  | cons u rest ih =>
    intro k h
    obtain ⟨a, ha⟩ := parse_total_of_no_fault env u k (h u (by simp))
    rw [with_ids, driver_loop_cons_article env k u (with_ids (k + 1) rest) a ha,
      ih (k + 1) (fun v hv => h v (by simp [hv]))]
    rfl

/-- Splitting the driver run after a fault-free stretch of urls. -/
lemma driver_loop_split (env : String → Response) :
    ∀ pre rest k, (∀ v ∈ pre, no_title_fault env v) →
      driver_loop env (with_ids k (pre ++ rest)) =
        (expected_trace k pre ++
          (driver_loop env (with_ids (k + pre.length) rest)).1,
         (driver_loop env (with_ids (k + pre.length) rest)).2) := by
  intro pre
  induction pre with
  | nil => intro rest k h; simp [expected_trace]
  | cons u pr ih =>
    intro rest k h
    obtain ⟨a, ha⟩ := parse_total_of_no_fault env u k (h u (by simp))
    rw [List.cons_append, with_ids,
      driver_loop_cons_article env k u (with_ids (k + 1) (pr ++ rest)) a ha,
      ih rest (k + 1) (fun v hv => h v (by simp [hv]))]
    have hk : k + (u :: pr).length = k + 1 + pr.length := by
      simp [List.length_cons]
      omega
    rw [expected_trace, hk]
    simp

/-- Every event the driver emits from a suffix with ids starting at `k`
carries an id at least `k`. -/
lemma driver_loop_id_lb (env : String → Response) :
    ∀ urls k e, e ∈ (driver_loop env (with_ids k urls)).1 → k ≤ event_id e := by
  intro urls
  induction urls with
  | nil => intro k e he; simp [driver_loop, with_ids] at he
  | cons u rest ih =>
    intro k e he
    rw [with_ids] at he
    cases hp : HTMLParser.parse env u k with
    | error err =>
      simp [driver_loop, hp] at he
      simp [he, event_id]
    | ok r =>
      cases r with
      | article a =>
        rw [driver_loop_cons_article env k u (with_ids (k + 1) rest) a hp] at he
        simp only [List.mem_cons] at he
        rcases he with he | he | he | he
        · simp [he, event_id]
        · simp [he, event_id]
        · simp [he, event_id]
        · have := ih (k + 1) e he
          omega
      | boolResult b =>
        simp only [driver_loop, hp, List.mem_cons] at he
        rcases he with he | he
        · simp [he, event_id]
        · have := ih (k + 1) e he
          omega
      | listResult l =>
        simp only [driver_loop, hp, List.mem_cons] at he
        rcases he with he | he
        · simp [he, event_id]
        · have := ih (k + 1) e he
          omega

/-- Every event in the expected trace for urls with ids from `k` carries
an id in `[k, k + length)`. -/
lemma expected_trace_id_bounds :
    ∀ urls (k : Nat) (e : Event), e ∈ expected_trace k urls →
      k ≤ event_id e ∧ event_id e < k + urls.length := by
  intro urls
  induction urls with
  | nil => intro k e he; simp [expected_trace] at he
  | cons u rest ih =>
    intro k e he
    simp only [expected_trace, List.mem_cons] at he
    rcases he with he | he | he | he
    · simp [he, event_id]
    · simp [he, event_id]
    · simp [he, event_id]
    · have := ih (k + 1) e he
      simp only [List.length_cons]
      omega

/-- An environment refuting claim C4: the first collected URL resolves to
a successfully fetched document with no title element, the second to a
good article document. -/
def c4_env : String → Response := fun u =>
  if u = "https://otr-online.ru/no-title" then
    Response.mk 200 (Doc.mk [Tag.mk "div" [] [] "body"])
  else
    Response.mk 200 (Doc.mk [Tag.mk "title" [] [] "T", Tag.mk "div" [] [] "B"])

/-- An environment whose every fetch is non-successful. -/
def c4_bad_env : String → Response := fun _ => Response.mk 500 (Doc.mk [])

/-- Counterexample to claim C4 as stated: when the document of the first
collected URL lacks a title element, the driver loop aborts (`true`
flag), the second URL is never handed to the extractor and nothing at
all is persisted for it — the batch does not continue with the remaining
URLs. -/
theorem C4_counterexample :
    (driver_loop c4_env
      [(1, "https://otr-online.ru/no-title"), (2, "https://otr-online.ru/good")]).2
      = true ∧
    Event.invoke 2 "https://otr-online.ru/good" ∉
      (driver_loop c4_env
        [(1, "https://otr-online.ru/no-title"), (2, "https://otr-online.ru/good")]).1 ∧
    Event.raw 2 ∉
      (driver_loop c4_env
        [(1, "https://otr-online.ru/no-title"), (2, "https://otr-online.ru/good")]).1 := by
  refine ⟨by decide, by decide, by decide⟩

/-- Claim C4 (amended): the hard extraction fault — a successfully
fetched document with no title element — aborts the whole batch: the run
stops at the faulting URL with nothing persisted for its id and no later
URL processed.  Only a non-successful fetch is tolerated without
aborting, and then the batch continues — with the default record still
persisted for that id rather than nothing. -/
theorem C4_fault_aborts_batch (env : String → Response) (id : Nat) (url : String)
    (rest : List (Nat × String)) :
    ((env url).ok = true → Doc.find (env url).text "title" = none →
      driver_loop env ((id, url) :: rest) = ([Event.invoke id url], true)) ∧
    ((env url).ok = false →
      driver_loop env ((id, url) :: rest) =
        (Event.invoke id url :: Event.raw id :: Event.meta id ::
          (driver_loop env rest).1, (driver_loop env rest).2)) := by
  constructor
  · intro hok ht
    simp [driver_loop, parse_no_title env url id hok ht]
  · intro hbad
    exact driver_loop_cons_article env id url rest (Article.make url id)
      (parse_not_ok env url id hbad)

/-- Witness for C4 (amended): a no-title document aborts immediately; a
failed fetch persists the default record and the run ends normally. -/
theorem C4_fault_aborts_batch_witness :
    driver_loop c4_env [(1, "https://otr-online.ru/no-title")] =
      ([Event.invoke 1 "https://otr-online.ru/no-title"], true) ∧
    driver_loop c4_bad_env [(2, "x")] =
      ([Event.invoke 2 "x", Event.raw 2, Event.meta 2], false) := by
  constructor
  · exact (C4_fault_aborts_batch c4_env 1 "https://otr-online.ru/no-title" []).1
      (by decide) (by decide)
  · have h := (C4_fault_aborts_batch c4_bad_env 2 "x" []).2 (by decide)
    simpa [driver_loop] using h

/-- Claim C5: for a successfully fetched article document whose parse
returns, a missing author-marker element yields the author sentinel
`["NOT FOUND"]` and an absence of `div` containers yields the text
sentinel `"NOT FOUND"`; a non-successful fetch returns the record with
title, author and text still at their construction defaults. -/
theorem C5_extractor_sentinels (env : String → Response) (url : String)
    (id : Nat) :
    (∀ a, HTMLParser.parse env url id = Except.ok (ParseResult.article a) →
      (env url).ok = true →
      ((Doc.find_with_class (env url).text "itemprop" "author" = none →
        a.author = some ["NOT FOUND"]) ∧
       (Doc.find_all (env url).text "div" = [] → a.text = some "NOT FOUND"))) ∧
    ((env url).ok = false →
      HTMLParser.parse env url id =
        Except.ok (ParseResult.article (Article.make url id)) ∧
      (Article.make url id).title = none ∧
      (Article.make url id).author = none ∧
      (Article.make url id).text = none) := by
  constructor
  · intro a ha hok
    cases hfind : Doc.find (env url).text "title" with
    | none =>
      rw [parse_no_title env url id hok hfind] at ha
      exact absurd ha (by simp)
    | some t =>
      cases hauth : Doc.find_with_class (env url).text "itemprop" "author" with
      | none =>
        simp [HTMLParser.parse, hok, fill_article_with_meta_information,
          hfind, hauth] at ha
        constructor
        · intro _
          rw [← ha]
        · intro hdiv
          rw [← ha]
          simp [fill_article_with_text, hdiv]
      | some tag =>
        constructor
        · intro h0
          exact absurd h0 (by simp)
        · intro hdiv
          simp [HTMLParser.parse, hok, fill_article_with_meta_information,
            hfind, hauth] at ha
          rw [← ha]
          simp [fill_article_with_text, hdiv]
  · intro hbad
    exact ⟨parse_not_ok env url id hbad, rfl, rfl, rfl⟩

/-- An environment for the C5 witness: the url `"ok"` fetches a document
with a title but no author marker and no `div`; the url `"bad"` fails to
fetch. -/
def c5_env : String → Response := fun u =>
  if u = "bad" then Response.mk 500 (Doc.mk [])
  else Response.mk 200 (Doc.mk [Tag.mk "title" [] [] "T"])

/-- Witness for C5 at the concrete environment: both sentinels appear,
and the failed fetch returns the default record. -/
theorem C5_extractor_sentinels_witness :
    ((Article.mk "ok" 1 (some "T") (some ["NOT FOUND"]) (some "NOT FOUND")).author =
      some ["NOT FOUND"] ∧
     (Article.mk "ok" 1 (some "T") (some ["NOT FOUND"]) (some "NOT FOUND")).text =
      some "NOT FOUND") ∧
    HTMLParser.parse c5_env "bad" 2 =
      Except.ok (ParseResult.article (Article.make "bad" 2)) := by
  refine ⟨⟨?_, ?_⟩, ?_⟩
  · exact ((C5_extractor_sentinels c5_env "ok" 1).1
      (Article.mk "ok" 1 (some "T") (some ["NOT FOUND"]) (some "NOT FOUND"))
      (by decide) (by decide)).1 (by decide)
  · exact ((C5_extractor_sentinels c5_env "ok" 1).1
      (Article.mk "ok" 1 (some "T") (some ["NOT FOUND"]) (some "NOT FOUND"))
      (by decide) (by decide)).2 (by decide)
  · exact ((C5_extractor_sentinels c5_env "bad" 2).2 (by decide)).1

/-- A parse fault occurs only on a successful fetch of a document with no
title element. -/
lemma parse_error_cond (env : String → Response) (url : String) (id : Nat)
    (e : String) (h : HTMLParser.parse env url id = Except.error e) :
    (env url).ok = true ∧ Doc.find (env url).text "title" = none := by
  by_cases hok : (env url).ok
  · refine ⟨hok, ?_⟩
    cases hfind : Doc.find (env url).text "title" with
    | none => rfl
    | some t =>
      obtain ⟨a, ha⟩ := parse_total_of_no_fault env url id (fun _ => by simp [hfind])
      rw [ha] at h
      exact absurd h (by simp)
  · rw [parse_not_ok env url id (by simpa using hok)] at h
    exact absurd h (by simp)

/-- Unconditional shape of any driver run: the urls split into a
fault-free stretch, fully processed in order with consecutive ids and a
raw-then-meta pair each, followed either by nothing (normal end) or by a
faulting url that only gets its invocation before the run aborts. -/
lemma driver_loop_characterize (env : String → Response) :
    ∀ urls k, ∃ pre rest,
      urls = pre ++ rest ∧
      driver_loop env (with_ids k urls) =
        (expected_trace k pre ++
          (match rest with
           | [] => []
           | u :: _ => [Event.invoke (k + pre.length) u]),
         !rest.isEmpty) ∧
      (rest = [] ∨ ∃ u t, rest = u :: t ∧ (env u).ok = true ∧
        Doc.find (env u).text "title" = none) := by
  intro urls
  induction urls with
  | nil =>
    intro k
    exact ⟨[], [], rfl, by simp [driver_loop, with_ids, expected_trace],
      Or.inl rfl⟩
  | cons u us ih =>
    intro k
    cases hp : HTMLParser.parse env u k with
    | error e =>
      refine ⟨[], u :: us, rfl, ?_,
        Or.inr ⟨u, us, rfl, parse_error_cond env u k e hp⟩⟩
      simp [with_ids, driver_loop, hp, expected_trace]
    | ok r =>
      obtain ⟨a, ha⟩ := parse_result_is_article env u k r hp
      subst ha
      obtain ⟨pre1, rest1, hsplit, htr, hfault⟩ := ih (k + 1)
      refine ⟨u :: pre1, rest1, by rw [hsplit, List.cons_append], ?_, hfault⟩
      rw [with_ids, driver_loop_cons_article env k u (with_ids (k + 1) us) a hp,
        htr]
      have hk : k + (u :: pre1).length = k + 1 + pre1.length := by
        simp [List.length_cons]
        omega
      simp [expected_trace, hk]
      cases rest1 with
      | nil => rfl
      | cons v t =>
        simp
        omega

/-- Claim C8: the pipeline driver processes the collected URLs strictly in
order, invokes the extractor for the k-th collected URL (1-based) with id
exactly k, forwards only genuine article records, and for each forwarded
record persists raw before meta, each exactly once.  Unconditionally, the
observable trace is the expected trace over a fault-free stretch of the
collected URLs, possibly ending at a url hit by the hard title fault of
claim C4 (which receives only its invocation); when no collected URL
faults, the trace is exactly the expected trace over all of them. -/
theorem C8_driver_order (env : String → Response) (cfg : CrawlerConfig) :
    (∃ pre rest,
      (find_articles env cfg).1 = pre ++ rest ∧
      run_pipeline env cfg =
        (expected_trace 1 pre ++
          (match rest with
           | [] => []
           | u :: _ => [Event.invoke (1 + pre.length) u]),
         !rest.isEmpty) ∧
      (rest = [] ∨ ∃ u t, rest = u :: t ∧ (env u).ok = true ∧
        Doc.find (env u).text "title" = none)) ∧
    ((∀ u ∈ (find_articles env cfg).1, no_title_fault env u) →
      run_pipeline env cfg = (expected_trace 1 (find_articles env cfg).1, false)) :=
  ⟨driver_loop_characterize env (find_articles env cfg).1 1,
   fun h => driver_loop_expected env (find_articles env cfg).1 1 h⟩

/-- An end-to-end environment for the C8 witness: one seed page holding a
relative link to one good article document. -/
def pipe_env : String → Response := fun u =>
  if u = "https://otr-online.ru/art1" then
    Response.mk 200 (Doc.mk [Tag.mk "title" [] [] "T", Tag.mk "div" [] [] "B"])
  else
    Response.mk 200 (Doc.mk [Tag.mk "a" [("href", "/art1")] [] "x"])

/-- Configuration for the C8 witness: one seed, target count 1. -/
def pipe_cfg : CrawlerConfig := CrawlerConfig.mk ["https://otr-online.ru/s"] 1

/-- Witness for C8: the run collects the one article URL and the trace is
invoke 1, raw 1, meta 1. -/
theorem C8_driver_order_witness :
    run_pipeline pipe_env pipe_cfg =
      ([Event.invoke 1 "https://otr-online.ru/art1", Event.raw 1, Event.meta 1],
        false) := by
  have hurls : (find_articles pipe_env pipe_cfg).1 =
      ["https://otr-online.ru/art1"] := by decide
  have h := (C8_driver_order pipe_env pipe_cfg).2 (by
    rw [hurls]
    intro u hu
    simp at hu
    subst hu
    intro hok
    decide)
  rw [h, hurls]
  decide

/-- Claim C10: whenever extraction returns normally it returns a genuine
article record — never the boolean or list alternatives of the declared
return type — so the `isinstance(article_info, Article)` filter of the driver
accepts every returned record, and for a collected URL whose extraction
returns normally (all earlier ones returning normally too, otherwise the
run never reaches it) exactly one raw and one meta persistence event are
emitted for its id. -/
theorem C10_parse_returns_article (env : String → Response) :
    (∀ url id r, HTMLParser.parse env url id = Except.ok r →
      ∃ a, r = ParseResult.article a) ∧
    (∀ pre u post, (∀ v ∈ pre ++ [u], no_title_fault env v) →
      (driver_loop env (with_ids 1 (pre ++ u :: post))).1.count
          (Event.raw (pre.length + 1)) = 1 ∧
      (driver_loop env (with_ids 1 (pre ++ u :: post))).1.count
          (Event.meta (pre.length + 1)) = 1) := by
  constructor
  · intro url id r h
    exact parse_result_is_article env url id r h
  · intro pre u post h
    have hpre : ∀ v ∈ pre, no_title_fault env v := fun v hv => h v (by simp [hv])
    have hu : no_title_fault env u := h u (by simp)
    rw [driver_loop_split env pre (u :: post) 1 hpre]
    have hlen : 1 + pre.length = pre.length + 1 := Nat.add_comm 1 _
    rw [hlen]
    obtain ⟨a, ha⟩ := parse_total_of_no_fault env u (pre.length + 1) hu
    rw [with_ids, driver_loop_cons_article env (pre.length + 1) u
      (with_ids (pre.length + 1 + 1) post) a ha]
    have hraw0 : (expected_trace 1 pre).count (Event.raw (pre.length + 1)) = 0 :=
      List.count_eq_zero.2 (fun hm => by
        have hb := expected_trace_id_bounds pre 1 _ hm
        simp only [event_id] at hb
        omega)
    have hmeta0 : (expected_trace 1 pre).count (Event.meta (pre.length + 1)) = 0 :=
      List.count_eq_zero.2 (fun hm => by
        have hb := expected_trace_id_bounds pre 1 _ hm
        simp only [event_id] at hb
        omega)
    have htail_raw :
        ((driver_loop env (with_ids (pre.length + 1 + 1) post)).1).count
          (Event.raw (pre.length + 1)) = 0 :=
      List.count_eq_zero.2 (fun hm => by
        have hb := driver_loop_id_lb env post (pre.length + 1 + 1) _ hm
        simp only [event_id] at hb
        omega)
    have htail_meta :
        ((driver_loop env (with_ids (pre.length + 1 + 1) post)).1).count
          (Event.meta (pre.length + 1)) = 0 :=
      List.count_eq_zero.2 (fun hm => by
        have hb := driver_loop_id_lb env post (pre.length + 1 + 1) _ hm
        simp only [event_id] at hb
        omega)
    constructor
    · simp [List.count_append, List.count_cons, hraw0, htail_raw]
    · simp [List.count_append, List.count_cons, hmeta0, htail_meta]

/-- An environment for the C10 witness. -/
def c10_env : String → Response := fun _ =>
  Response.mk 200 (Doc.mk [Tag.mk "title" [] [] "T"])

/-- Witness for C10 at one collected URL: the returned value is an
article record, and exactly one raw and one meta event are emitted. -/
theorem C10_parse_returns_article_witness :
    (∃ a, ParseResult.article
      (Article.mk "w" 3 (some "T") (some ["NOT FOUND"]) (some "NOT FOUND")) =
        ParseResult.article a) ∧
    (driver_loop c10_env (with_ids 1 ([] ++ "u" :: []))).1.count
      (Event.raw (List.length ([] : List String) + 1)) = 1 ∧
    (driver_loop c10_env (with_ids 1 ([] ++ "u" :: []))).1.count
      (Event.meta (List.length ([] : List String) + 1)) = 1 := by
  refine ⟨?_, ?_, ?_⟩
  · exact (C10_parse_returns_article c10_env).1 "w" 3 _ (by decide)
  · exact ((C10_parse_returns_article c10_env).2 [] "u" [] (by
      intro v hv
      simp at hv
      subst hv
      intro hok
      decide)).1
  · exact ((C10_parse_returns_article c10_env).2 [] "u" [] (by
      intro v hv
      simp at hv
      subst hv
      intro hok
      decide)).2

end Scraper
